import Mathlib

/-!
# FER webapp: perception loop and MQTT event emission

A shallow embedding of `webapp/app.js` and `webapp/mqtt_client.js`.

* JavaScript numbers are modelled by an ordered field `K` with a floor function
  (`ℚ` for evaluation, `ℝ` where the exponential is needed); rounding of IEEE
  doubles is not modelled.
* `tf.exp` is a parameter `expf : K → K` of the post-processing; the theorems
  instantiate it with `Real.exp`.
* Asynchronous code is modelled by a step function on an explicit state: a call
  of `predictEmotion` suspended at its `await` is an entry of `inFlight`, and
  the arrival of the classifier output is an event of its own.
-/

namespace FerApp

/-! ## Constants of app.js -/

/-- The constant `PREDICTION_INTERVAL` (milliseconds). -/
def PREDICTION_INTERVAL : Int := 300

/-- The constant `LABELS`. -/
def LABELS : List String :=
  ["Angry", "Disgust", "Fear", "Happy", "Neutral", "Sad", "Surprise"]

/-! ## Data -/

/-- The field `detection.boundingBox` of a MediaPipe detection (relative coordinates). -/
structure BoundingBox (K : Type) where
  xCenter : K
  yCenter : K
  width : K
  height : K
deriving DecidableEq, Repr

/-- The object `{ x: sx, y: sy, w: sw, h: sh }` handed to `predictEmotion`. -/
structure Region (K : Type) where
  x : K
  y : K
  w : K
  h : K
deriving DecidableEq, Repr

/-- One element `{ label: LABELS[i], prob: p }` of `results`; `LABELS[i]` is
`undefined` (here `none`) when `i` is out of range. -/
structure Prediction (K : Type) where
  label : Option String
  prob : K
deriving DecidableEq, Repr

/-- The calls the perception loop makes to the renderer and to the publisher. -/
inductive Call (K : Type) where
  | showSinglePrediction (topResult : Prediction K) (bbox : Option (Region K))
  | publishEmotionEvent (userId : Option String) (emotion : Option String)
      (confidence : K) (bbox : Option (Region K))
deriving DecidableEq, Repr

/-- The module-level variables of app.js that the perception loop reads and writes,
together with the calls of `predictEmotion` that are suspended at an `await` and
the log of outgoing calls. -/
structure AppState (K : Type) where
  /-- Whether `model` is non-null. -/
  model : Bool
  running : Bool
  lastPredictionTime : Int
  /-- The value `video.videoWidth`. -/
  videoWidth : K
  /-- The value `video.videoHeight`. -/
  videoHeight : K
  /-- Whether `typeof window.publishEmotionEvent === 'function'`. -/
  publishDefined : Bool
  /-- The value `window.MQTT_CONFIG.CLIENT_ID`, `none` when the config or the field is absent. -/
  configClientId : Option String
  /-- The `bbox` arguments of the `predictEmotion` calls awaiting the classifier. -/
  inFlight : List (Region K)
  /-- The calls made so far, oldest first. -/
  calls : List (Call K)
deriving DecidableEq, Repr

/-! ## onFaceDetectionResults: pixel coordinates -/

section Coordinates

variable {K : Type} [LinearOrderedField K] [FloorRing K]

/-- The four constants `x`, `y`, `w`, `h` computed per detection in
`onFaceDetectionResults` (lines 93-96), as a tuple. -/
def facePixelCoords (bbox : BoundingBox K) (videoWidth videoHeight : K) : K × K × K × K :=
  let x := bbox.xCenter * videoWidth - (bbox.width * videoWidth) / 2
  let y := bbox.yCenter * videoHeight - (bbox.height * videoHeight) / 2
  let w := bbox.width * videoWidth
  let h := bbox.height * videoHeight
  (x, y, w, h)

/-- The function `predictEmotionForFace(x, y, w, h)` up to its call of `predictEmotion`:
the result is the `bbox` argument of that call, or `none` when the function
returns before making it. -/
def predictEmotionForFace (model running : Bool) (videoWidth videoHeight : K)
    (x y w h : K) : Option (Region K) :=
  if !model || !running then none
  else
    let sx : K := max 0 ((⌊x⌋ : ℤ) : K)
    let sy : K := max 0 ((⌊y⌋ : ℤ) : K)
    let sw : K := min w (videoWidth - sx)
    let sh : K := min h (videoHeight - sy)
    if sw ≤ 0 ∨ sh ≤ 0 then none
    else some { x := sx, y := sy, w := sw, h := sh }

end Coordinates

/-! ## onFaceDetectionResults: the throttle -/

/-- The test `now - lastPredictionTime > PREDICTION_INTERVAL` of line 119. -/
def throttlePasses (lastPredictionTime now : Int) : Bool :=
  decide (now - lastPredictionTime > PREDICTION_INTERVAL)

/-- Lines 118-122 for one detection, restricted to the variable
`lastPredictionTime`: the pair of the flag "predictEmotionForFace was called" and
the new value of `lastPredictionTime`. -/
def throttleStep (lastPredictionTime now : Int) : Bool × Int :=
  if throttlePasses lastPredictionTime now then (true, now) else (false, lastPredictionTime)

/-- The decisions of the throttle over a sequence of attempts, given by the values
`Date.now()` returned at each of them, in iteration order. -/
def throttleRun : Int → List Int → List Bool
  | _, [] => []
  | last, now :: rest => (throttleStep last now).1 :: throttleRun (throttleStep last now).2 rest

/-! ## predictEmotion: post-processing of the classifier output -/

section PostProcessing

variable {K : Type} [LinearOrderedField K]

/-- The scalar `tf.max(t)` of a rank-1 tensor (the value on the empty tensor is not
used by the theorems below). -/
def tfMax : List K → K
  | [] => 0
  | x :: xs => xs.foldl max x

/-- The scalar `tf.sum(exp)` of a rank-1 tensor. -/
def tfSum (t : List K) : K := t.foldl (fun a b => a + b) 0

/-- Lines 185-187: `exp = tf.exp(t.sub(tf.max(t)))`, then `exp.div(tf.sum(exp))`. -/
def softmax (expf : K → K) (t : List K) : List K :=
  let exp := t.map (fun p => expf (p - tfMax t))
  exp.map (fun e => e / tfSum exp)

/-- Lines 181-190: the values of `probs` after the conditional softmax. -/
def normalizeProbs (expf : K → K) (probs : List K) : List K :=
  let sum := probs.foldl (fun a b => a + b) 0
  if |sum - 1.0| > 0.01 then softmax expf probs else probs

/-- The array `probs.map((p, i) => ({ label: LABELS[i], prob: p }))` of line 192. -/
def labelProbs (probs : List K) : List (Prediction K) :=
  probs.mapIdx (fun i p => { label := LABELS.get? i, prob := p })

/-- The comparator `(a, b) => b.prob - a.prob` is negative or zero exactly when
`a` may stay in front of `b`. -/
def probDescending (a b : Prediction K) : Prop := b.prob ≤ a.prob

instance probDescendingDecidable : DecidableRel (probDescending : Prediction K → Prediction K → Prop) :=
  fun a b => inferInstanceAs (Decidable (b.prob ≤ a.prob))

instance probDescendingTotal : IsTotal (Prediction K) probDescending :=
  ⟨fun a b => le_total b.prob a.prob⟩

instance probDescendingTrans : IsTrans (Prediction K) probDescending :=
  ⟨fun _ _ _ hab hbc => le_trans hbc hab⟩

/-- Lines 181-193: the array `results`. `Array.prototype.sort` is stable, as is
insertion sort. -/
def rankedResults (expf : K → K) (raw : List K) : List (Prediction K) :=
  (labelProbs (normalizeProbs expf raw)).insertionSort probDescending

/-- The truthiness test of `window.MQTT_CONFIG.CLIENT_ID` at line 204. -/
def configUserId (configClientId : Option String) : Option String :=
  match configClientId with
  | some id => if id = "" then none else some id
  | none => none

/-- The part of `predictEmotion(faceCanvas, bbox)` after the classifier output `raw`
has arrived (lines 182-210). With an empty `results`, reading `results[0].label`
throws and the handler of line 214 only logs. -/
def predictEmotionResume (expf : K → K) (st : AppState K) (bbox : Option (Region K))
    (raw : List K) : AppState K :=
  match rankedResults expf raw with
  | [] => st
  | top :: _ =>
    let st1 := { st with calls := st.calls ++ [Call.showSinglePrediction top bbox] }
    if st1.publishDefined then
      { st1 with calls := st1.calls ++
          [Call.publishEmotionEvent (configUserId st1.configClientId) top.label top.prob bbox] }
    else st1

end PostProcessing

/-! ## The perception loop as a step function -/

section Loop

variable {K : Type} [LinearOrderedField K] [FloorRing K]

/-- The body of the `forEach` of `onFaceDetectionResults` for one detection; `now`
is the value `Date.now()` returns at line 118. A call of `predictEmotion` runs up
to its first `await` and is then recorded in `inFlight`. -/
def onDetection (st : AppState K) (d : BoundingBox K × Int) : AppState K :=
  let c := facePixelCoords d.1 st.videoWidth st.videoHeight
  let now := d.2
  if throttlePasses st.lastPredictionTime now then
    let st1 :=
      match predictEmotionForFace st.model st.running st.videoWidth st.videoHeight
          c.1 c.2.1 c.2.2.1 c.2.2.2 with
      | none => st
      | some r => { st with inFlight := st.inFlight ++ [r] }
    { st1 with lastPredictionTime := now }
  else st

/-- The callback `onFaceDetectionResults(results)`: the detections of one frame, each
with the clock value read during its iteration. -/
def onFaceDetectionResults (st : AppState K) (detections : List (BoundingBox K × Int)) :
    AppState K :=
  detections.foldl onDetection st

/-- The events of the perception loop. -/
inductive Event (K : Type) where
  /-- The click handler of `startBtn` ran to completion (model loaded, camera started). -/
  | start
  /-- The click handler of `stopBtn`. -/
  | stop
  /-- The detector delivered the results of one frame. -/
  | detections (results : List (BoundingBox K × Int))
  /-- The classifier output `raw` arrived for the suspended `predictEmotion` call number `i`. -/
  | classified (i : Nat) (raw : List K)

/-- One event of the perception loop. -/
def step (expf : K → K) (st : AppState K) : Event K → AppState K
  | Event.start => { st with model := true, running := true }
  | Event.stop => { st with running := false }
  | Event.detections results => onFaceDetectionResults st results
  | Event.classified i raw =>
    match st.inFlight.get? i with
    | none => st
    | some bbox =>
      predictEmotionResume expf { st with inFlight := st.inFlight.eraseIdx i } (some bbox) raw

/-- A run of the perception loop. -/
def run (expf : K → K) (st : AppState K) (events : List (Event K)) : AppState K :=
  events.foldl (step expf) st

/-- The state of app.js after the script has loaded, on a video of the given size. -/
def initialState (videoWidth videoHeight : K) (publishDefined : Bool)
    (configClientId : Option String) : AppState K :=
  { model := false, running := false, lastPredictionTime := 0,
    videoWidth := videoWidth, videoHeight := videoHeight,
    publishDefined := publishDefined, configClientId := configClientId,
    inFlight := [], calls := [] }

/-- The face box of the first end-to-end scenario. -/
def scenarioBox : BoundingBox K :=
  { xCenter := 1 / 2, yCenter := 1 / 2, width := 3 / 10, height := 3 / 10 }

/-- A running loop on a 640x480 frame whose last accepted attempt was at `t1`. -/
def runningState (t1 : Int) : AppState K :=
  { model := true, running := true, lastPredictionTime := t1,
    videoWidth := 640, videoHeight := 480,
    publishDefined := true, configClientId := none,
    inFlight := [], calls := [] }

end Loop

end FerApp

namespace FerMqtt

/-! ## JavaScript strings -/

/-- JavaScript strings, as lists of characters. -/
abbrev JsString := List Char

/-- The truthiness of a string-or-null value: `null`, `undefined` (both `none`) and
the empty string are falsy. -/
def jsTruthy : Option JsString → Bool
  | none => false
  | some s => !s.isEmpty

/-- The method `String.prototype.split` with a one-character separator. -/
def jsSplit (sep : Char) : JsString → List JsString
  | [] => [[]]
  | c :: cs =>
    if c = sep then [] :: jsSplit sep cs
    else
      match jsSplit sep cs with
      | [] => [[c]]
      | piece :: pieces => (c :: piece) :: pieces

/-- The code points of ECMAScript `WhiteSpace` and `LineTerminator`. -/
def isJsWhiteSpace (c : Char) : Bool :=
  c.toNat ∈ [0x9, 0xA, 0xB, 0xC, 0xD, 0x20, 0xA0, 0x1680, 0x2028, 0x2029, 0x202F,
    0x205F, 0x3000, 0xFEFF] || (0x2000 ≤ c.toNat && c.toNat ≤ 0x200A)

/-- The method `String.prototype.trim`. -/
def jsTrim (s : JsString) : JsString :=
  ((s.dropWhile isJsWhiteSpace).reverse.dropWhile isJsWhiteSpace).reverse

/-! ## The browser environment of mqtt_client.js -/

/-- The key `'fer_client_id'`. -/
def key : JsString := "fer_client_id".toList

/-- The cookie store of the page: pairs of name and value, in the order in which
`document.cookie` lists them. -/
abbrev CookieJar := List (JsString × JsString)

/-- The text `name=value` of one cookie. -/
def entryText (e : JsString × JsString) : JsString := e.1 ++ '=' :: e.2

/-- The getter of `document.cookie`: the pairs `name=value`, joined by `"; "`. -/
def documentCookie (jar : CookieJar) : JsString :=
  List.intercalate "; ".toList (jar.map entryText)

/-- Stripping of spaces and tabs, as the browser does around a cookie name or value. -/
def cookieTrim (s : JsString) : JsString :=
  let ws : Char → Bool := fun c => c = ' ' || c = '\t'
  ((s.dropWhile ws).reverse.dropWhile ws).reverse

/-- Replacement of the value of the first cookie called `name`, or a new last entry. -/
def setCookie (name value : JsString) : CookieJar → CookieJar
  | [] => [(name, value)]
  | e :: rest => if e.1 = name then (name, value) :: rest else e :: setCookie name value rest

/-- The setter of `document.cookie` (environment model, after RFC 6265 section 5.2):
the text up to the first `;` is the name-value pair, split at its first `=`; a
pair without `=` or with an empty name is ignored. The attributes that follow
(`expires` one year ahead, `path=/`, `SameSite=Strict`) do not remove the cookie. -/
def assignDocumentCookie (jar : CookieJar) (s : JsString) : CookieJar :=
  let pair := s.takeWhile (fun c => c ≠ ';')
  if '=' ∈ pair then
    let name := cookieTrim (pair.takeWhile (fun c => c ≠ '='))
    let value := cookieTrim ((pair.dropWhile (fun c => c ≠ '=')).drop 1)
    if name.isEmpty then jar else setCookie name value jar
  else jar

/-- What `ensureClientId` reads and writes: the field `cfg.CLIENT_ID`, the two
stores, and whether access to each store works or throws. -/
structure Browser where
  /-- The field `cfg.CLIENT_ID`. -/
  clientId : Option JsString
  /-- Whether `localStorage.getItem` and `localStorage.setItem` work rather than throw. -/
  localStorageWorks : Bool
  /-- The items of `localStorage`. -/
  localStorage : JsString → Option JsString
  /-- Whether reading and assigning `document.cookie` work rather than throw. -/
  cookiesWork : Bool
  cookieJar : CookieJar

/-- The random values `ensureClientId` draws. -/
structure RandomSource where
  /-- The eight bytes `crypto.getRandomValues(buf)` writes, `none` when `crypto` is
  not available. -/
  cryptoBytes : Option (Fin 8 → Fin 256)
  /-- The hexadecimal digits that follow `0.` in `Math.random().toString(16)`. -/
  mathRandomDigits : List (Fin 16)

/-- The hexadecimal digit of a value below 16. -/
def hexDigit (d : Fin 16) : Char := "0123456789abcdef".toList.getD d.val '0'

/-- The expression `b.toString(16).padStart(2, '0')` for a byte `b`. -/
def byteHex (b : Fin 256) : JsString :=
  [hexDigit ⟨b.val / 16, by omega⟩, hexDigit ⟨b.val % 16, by omega⟩]

/-! ## ensureClientId -/

/-- The `for` loop of lines 32-38 over the pieces of `document.cookie.split(';')`:
the value of `id` after the loop, starting from `id`. -/
def cookieLoop (id : Option JsString) : List JsString → Option JsString
  | [] => id
  | cookie :: rest =>
    let parts := jsSplit '=' (jsTrim cookie)
    if parts.head? = some key then parts.get? 1 else cookieLoop id rest

/-- Lines 44-50: a new identifier. -/
def generateId (rnd : RandomSource) : JsString :=
  match rnd.cryptoBytes with
  | some buf => "fer_webapp_".toList ++ ((List.ofFn buf).map byteHex).flatten
  | none => "fer_webapp_".toList ++ ((rnd.mathRandomDigits.take 8).map hexDigit)

/-- The template string assigned to `document.cookie` at lines 57 and 65; `expires`
is the text `expires.toUTCString()`. -/
def cookieText (id expires : JsString) : JsString :=
  key ++ "=".toList ++ id ++ "; expires=".toList ++ expires ++
    "; path=/; SameSite=Strict".toList

/-- Lines 53-58 and 61-66: the two writes, each in its own `try`. -/
def storeInBoth (expires id : JsString) (b : Browser) : Browser :=
  let b1 :=
    if b.localStorageWorks then
      { b with localStorage := Function.update b.localStorage key (some id) }
    else b
  if b1.cookiesWork then
    { b1 with cookieJar := assignDocumentCookie b1.cookieJar (cookieText id expires) }
  else b1

/-- The `try` block of `ensureClientId` (lines 22-70); `Except.error` is an exception
reaching the `catch` of line 71, which only reading `document.cookie` can raise. -/
def ensureClientIdTry (rnd : RandomSource) (expires : JsString) (b : Browser) :
    Except Unit (JsString × Browser) :=
  if jsTruthy b.clientId then Except.ok (b.clientId.getD [], b)
  else
    let id0 : Option JsString := if b.localStorageWorks then b.localStorage key else none
    let afterCookies : Except Unit (Option JsString) :=
      if !jsTruthy id0 then
        if b.cookiesWork then
          Except.ok (cookieLoop id0 (jsSplit ';' (documentCookie b.cookieJar)))
        else Except.error ()
      else Except.ok id0
    match afterCookies with
    | Except.error e => Except.error e
    | Except.ok id1 =>
      let id : JsString := if !jsTruthy id1 then generateId rnd else id1.getD []
      let b1 := storeInBoth expires id b
      Except.ok (id, { b1 with clientId := some id })

/-- The function `ensureClientId()`: the returned identifier and the state it leaves. -/
def ensureClientId (rnd : RandomSource) (expires : JsString) (b : Browser) :
    JsString × Browser :=
  match ensureClientIdTry rnd expires b with
  | Except.ok r => r
  | Except.error _ =>
    let id :=
      if jsTruthy b.clientId then b.clientId.getD []
      else "fer_web_".toList ++ ((rnd.mathRandomDigits.take 6).map hexDigit)
    (id, { b with clientId := some id })

/-- A later page load: `cfg.CLIENT_ID` is unset again, and the item of the primary
store is gone while the cookies are kept. -/
def freshSessionWithoutLocalStorage (b : Browser) : Browser :=
  { b with clientId := none, localStorage := Function.update b.localStorage key none }

/-- An identifier that survives the cookie round trip: it contains neither `;` nor `=`
and has no white space at either end. -/
def CookieSafe (v : JsString) : Prop :=
  ';' ∉ v ∧ '=' ∉ v ∧ v.dropWhile isJsWhiteSpace = v ∧
    v.reverse.dropWhile isJsWhiteSpace = v.reverse

instance cookieSafeDecidable (v : JsString) : Decidable (CookieSafe v) := by
  unfold CookieSafe
  infer_instance

/-- A cookie store as a browser holds it: no `;` in a name or a value, no `=` in a
name, and no white space in front of a name. -/
def WellFormedJar (jar : CookieJar) : Prop :=
  ∀ e ∈ jar, ';' ∉ e.1 ∧ ';' ∉ e.2 ∧ '=' ∉ e.1 ∧ e.1.dropWhile isJsWhiteSpace = e.1

instance wellFormedJarDecidable (jar : CookieJar) : Decidable (WellFormedJar jar) := by
  unfold WellFormedJar
  infer_instance

/-- A random source with `crypto` available. -/
def sampleRandom : RandomSource :=
  { cryptoBytes := some (fun i => ⟨17 * i.val, by omega⟩), mathRandomDigits := [] }

/-- A first visit: nothing configured and nothing stored. -/
def firstVisit : Browser :=
  { clientId := none, localStorageWorks := true, localStorage := fun _ => none,
    cookiesWork := true, cookieJar := [] }

/-- A browser whose item `fer_client_id` of `localStorage` holds the text `a=b`. -/
def seededBrowser : Browser :=
  { clientId := none, localStorageWorks := true,
    localStorage := fun k => if k = key then some "a=b".toList else none,
    cookiesWork := true, cookieJar := [] }

/-! ## publishEmotionEvent -/

/-- The object `payload` of lines 127-133. -/
structure Payload (K : Type) where
  user_id : Option JsString
  emotion : Option JsString
  confidence : Option K
  bbox : Option (FerApp.Region K)
  ts : JsString

/-- The broker client `client`: its flag `connected` and the arguments of the calls
of `client.publish` made so far (topic, payload before `JSON.stringify`, qos). -/
structure MqttClient (K : Type) where
  connected : Bool
  published : List (JsString × Payload K × Nat)

/-- The function `window.publishEmotionEvent(userId, emotion, confidence, bbox)`.
The argument `confidence` is `none` when it is not a number; `topic` and `qos` are
`cfg.TOPIC` and `cfg.QOS`, and `ts` is `new Date().toISOString()`. The result is
`Except.error` for an exception that reaches the caller and `Except.ok` with the
state of `client` for a normal return; an exception of `client.publish` is
caught at line 139, after the call has been made. -/
def publishEmotionEvent {K : Type} (topic : JsString) (qos : Option Nat) (ts : JsString)
    (client : Option (MqttClient K))
    (userId emotion : Option JsString) (confidence : Option K)
    (bbox : Option (FerApp.Region K)) : Except String (Option (MqttClient K)) :=
  match client with
  | none => Except.ok client
  | some c =>
    if !c.connected then Except.ok client
    else
      let payload : Payload K :=
        { user_id := if jsTruthy userId then userId else none,
          emotion := if jsTruthy emotion then emotion else none,
          confidence := confidence,
          bbox := bbox,
          ts := ts }
      Except.ok (some { c with published := c.published ++ [(topic, payload, qos.getD 0)] })

end FerMqtt

/-! # Theorems -/

namespace FerApp

/-! ## Pixel regions -/

section RegionTheorems

variable {K : Type} [LinearOrderedField K] [FloorRing K]

/-- Any region that `predictEmotionForFace` hands on has the clamped form. -/
theorem predictEmotionForFace_eq_some {model running : Bool} {W H x y w h : K} {r : Region K}
    (hr : predictEmotionForFace model running W H x y w h = some r) :
    r.x = max 0 ((⌊x⌋ : ℤ) : K) ∧ r.y = max 0 ((⌊y⌋ : ℤ) : K) ∧
      r.w = min w (W - r.x) ∧ r.h = min h (H - r.y) ∧ 0 < r.w ∧ 0 < r.h := by
  unfold predictEmotionForFace at hr
  split_ifs at hr with h1
  dsimp only at hr
  split_ifs at hr with h2
  simp only [Option.some.injEq] at hr
  subst hr
  simp only [not_or, not_le] at h2
  exact ⟨rfl, rfl, rfl, rfl, h2.1, h2.2⟩

/-- C1: for a bounding box of positive relative width and height on a frame of
positive width and height, every region `{x: sx, y: sy, w: sw, h: sh}` that
`predictEmotionForFace` passes on to `predictEmotion` satisfies `0 ≤ sx`, `0 ≤ sy`,
`sw > 0`, `sh > 0`, `sx + sw ≤ videoWidth` and `sy + sh ≤ videoHeight`. -/
theorem predictEmotionForFace_region_in_frame (model running : Bool) (bbox : BoundingBox K)
    (W H : K) (_hw : 0 < bbox.width) (_hh : 0 < bbox.height) (_hW : 0 < W) (_hH : 0 < H)
    (r : Region K)
    (hr : predictEmotionForFace model running W H (facePixelCoords bbox W H).1
      (facePixelCoords bbox W H).2.1 (facePixelCoords bbox W H).2.2.1
      (facePixelCoords bbox W H).2.2.2 = some r) :
    0 ≤ r.x ∧ 0 ≤ r.y ∧ 0 < r.w ∧ 0 < r.h ∧ r.x + r.w ≤ W ∧ r.y + r.h ≤ H := by
  obtain ⟨hx, hy, hrw, hrh, hwpos, hhpos⟩ := predictEmotionForFace_eq_some hr
  refine ⟨?_, ?_, hwpos, hhpos, ?_, ?_⟩
  · rw [hx]; exact le_max_left _ _
  · rw [hy]; exact le_max_left _ _
  · have := min_le_right (facePixelCoords bbox W H).2.2.1 (W - r.x)
    rw [← hrw] at this
    linarith
  · have := min_le_right (facePixelCoords bbox W H).2.2.2 (H - r.y)
    rw [← hrh] at this
    linarith

end RegionTheorems

/-- The face box of the first end-to-end scenario yields the region 224, 168, 192, 144. -/
theorem scenario_region_rat :
    predictEmotionForFace true true (640 : ℚ) 480
      (facePixelCoords ⟨1/2, 1/2, 3/10, 3/10⟩ 640 480).1
      (facePixelCoords ⟨1/2, 1/2, 3/10, 3/10⟩ 640 480).2.1
      (facePixelCoords ⟨1/2, 1/2, 3/10, 3/10⟩ 640 480).2.2.1
      (facePixelCoords ⟨1/2, 1/2, 3/10, 3/10⟩ 640 480).2.2.2 = some ⟨224, 168, 192, 144⟩ := by
  norm_num [predictEmotionForFace, facePixelCoords]

/-- Witness of C1 on the 640x480 frame of the first end-to-end scenario. -/
theorem predictEmotionForFace_region_in_frame_witness :
    (0 : ℚ) ≤ 224 ∧ (0 : ℚ) ≤ 168 ∧ (0 : ℚ) < 192 ∧ (0 : ℚ) < 144 ∧
      (224 : ℚ) + 192 ≤ 640 ∧ (168 : ℚ) + 144 ≤ 480 :=
  predictEmotionForFace_region_in_frame true true ⟨1/2, 1/2, 3/10, 3/10⟩ 640 480
    (by norm_num) (by norm_num) (by norm_num) (by norm_num) ⟨224, 168, 192, 144⟩
    scenario_region_rat

/-- Counterexample to C9: the face box `{xCenter: 1/2, yCenter: 1/2, width: 1/2,
height: 1/2}` on a 3x3 frame is handed on as `{x: 0, y: 0, w: 3/2, h: 3/2}`, whose
width is not an integer. -/
theorem region_not_integer_counterexample :
    ¬ ∀ (bbox : BoundingBox ℚ) (W H : ℕ) (r : Region ℚ),
      0 ≤ bbox.xCenter ∧ bbox.xCenter ≤ 1 → 0 ≤ bbox.yCenter ∧ bbox.yCenter ≤ 1 →
      0 ≤ bbox.width ∧ bbox.width ≤ 1 → 0 ≤ bbox.height ∧ bbox.height ≤ 1 →
      0 < W → 0 < H →
      predictEmotionForFace true true (W : ℚ) (H : ℚ) (facePixelCoords bbox W H).1
        (facePixelCoords bbox W H).2.1 (facePixelCoords bbox W H).2.2.1
        (facePixelCoords bbox W H).2.2.2 = some r →
      (∃ n : ℤ, r.x = n) ∧ (∃ n : ℤ, r.y = n) ∧ (∃ n : ℤ, r.w = n) ∧ (∃ n : ℤ, r.h = n) := by
  intro hall
  have hr : predictEmotionForFace true true ((3 : ℕ) : ℚ) ((3 : ℕ) : ℚ)
      (facePixelCoords ⟨1/2, 1/2, 1/2, 1/2⟩ ((3 : ℕ) : ℚ) ((3 : ℕ) : ℚ)).1
      (facePixelCoords ⟨1/2, 1/2, 1/2, 1/2⟩ ((3 : ℕ) : ℚ) ((3 : ℕ) : ℚ)).2.1
      (facePixelCoords ⟨1/2, 1/2, 1/2, 1/2⟩ ((3 : ℕ) : ℚ) ((3 : ℕ) : ℚ)).2.2.1
      (facePixelCoords ⟨1/2, 1/2, 1/2, 1/2⟩ ((3 : ℕ) : ℚ) ((3 : ℕ) : ℚ)).2.2.2
        = some ⟨0, 0, 3/2, 3/2⟩ := by
    have hfloor : ⌊(3 / 4 : ℚ)⌋ = 0 := by
      rw [Int.floor_eq_iff]; norm_num
    norm_num [predictEmotionForFace, facePixelCoords, hfloor]
  obtain ⟨-, -, ⟨n, hn⟩, -⟩ := hall ⟨1/2, 1/2, 1/2, 1/2⟩ 3 3 ⟨0, 0, 3/2, 3/2⟩
    (by norm_num) (by norm_num) (by norm_num) (by norm_num) (by norm_num) (by norm_num) hr
  have h2 : ((2 * n : ℤ) : ℚ) = ((3 : ℤ) : ℚ) := by
    push_cast
    rw [← hn]
    norm_num
  have h3 : 2 * n = 3 := by exact_mod_cast h2
  omega

section RegionIntegrality

variable {K : Type} [LinearOrderedField K] [FloorRing K]

/-- C9, amended: for a face box with relative fields in `[0,1]` on a frame whose
`videoWidth` and `videoHeight` are positive integers, every region
`{x: sx, y: sy, w: sw, h: sh}` that `predictEmotionForFace` passes on has
non-negative integers `sx` and `sy`; `sw` is either the unrounded pixel width
`width * videoWidth` or the integer `videoWidth - sx`, and `sh` is either
`height * videoHeight` or the integer `videoHeight - sy`; hence `sw` and `sh` are
integers whenever `width * videoWidth` and `height * videoHeight` are. -/
theorem predictEmotionForFace_region_integrality (model running : Bool) (bbox : BoundingBox K)
    (W H : ℕ) (r : Region K)
    (_hx : 0 ≤ bbox.xCenter ∧ bbox.xCenter ≤ 1) (_hy : 0 ≤ bbox.yCenter ∧ bbox.yCenter ≤ 1)
    (_hw : 0 ≤ bbox.width ∧ bbox.width ≤ 1) (_hh : 0 ≤ bbox.height ∧ bbox.height ≤ 1)
    (_hW : 0 < W) (_hH : 0 < H)
    (hr : predictEmotionForFace model running (W : K) (H : K) (facePixelCoords bbox W H).1
      (facePixelCoords bbox W H).2.1 (facePixelCoords bbox W H).2.2.1
      (facePixelCoords bbox W H).2.2.2 = some r) :
    ∃ i j : ℤ, 0 ≤ i ∧ 0 ≤ j ∧ r.x = i ∧ r.y = j ∧
      (r.w = bbox.width * W ∨ r.w = ((W - i : ℤ) : K)) ∧
      (r.h = bbox.height * H ∨ r.h = ((H - j : ℤ) : K)) ∧
      ((∃ n : ℤ, bbox.width * W = n) → ∃ n : ℤ, r.w = n) ∧
      ((∃ n : ℤ, bbox.height * H = n) → ∃ n : ℤ, r.h = n) := by
  obtain ⟨hx, hy, hrw, hrh, -, -⟩ := predictEmotionForFace_eq_some hr
  have hxi : r.x = ((max 0 ⌊(facePixelCoords bbox (W : K) (H : K)).1⌋ : ℤ) : K) := by
    rw [hx]; push_cast; rfl
  have hyi : r.y = ((max 0 ⌊(facePixelCoords bbox (W : K) (H : K)).2.1⌋ : ℤ) : K) := by
    rw [hy]; push_cast; rfl
  have hw2 : r.w = bbox.width * W ∨
      r.w = (((W : ℤ) - max 0 ⌊(facePixelCoords bbox (W : K) (H : K)).1⌋ : ℤ) : K) := by
    rcases min_choice (facePixelCoords bbox (W : K) (H : K)).2.2.1 ((W : K) - r.x) with h | h
    · left; rw [hrw, h]; rfl
    · right; rw [hrw, h, hxi]; push_cast; rfl
  have hh2 : r.h = bbox.height * H ∨
      r.h = (((H : ℤ) - max 0 ⌊(facePixelCoords bbox (W : K) (H : K)).2.1⌋ : ℤ) : K) := by
    rcases min_choice (facePixelCoords bbox (W : K) (H : K)).2.2.2 ((H : K) - r.y) with h | h
    · left; rw [hrh, h]; rfl
    · right; rw [hrh, h, hyi]; push_cast; rfl
  refine ⟨_, _, le_max_left _ _, le_max_left _ _, hxi, hyi, hw2, hh2, ?_, ?_⟩
  · rintro ⟨n, hn⟩
    rcases hw2 with h | h
    · exact ⟨n, h.trans hn⟩
    · exact ⟨_, h⟩
  · rintro ⟨n, hn⟩
    rcases hh2 with h | h
    · exact ⟨n, h.trans hn⟩
    · exact ⟨_, h⟩

end RegionIntegrality

/-- The face box of the first end-to-end scenario, with the frame size given as
natural numbers. -/
theorem scenario_region_nat :
    predictEmotionForFace true true (((640 : ℕ) : ℚ)) (((480 : ℕ) : ℚ))
      (facePixelCoords ⟨1/2, 1/2, 3/10, 3/10⟩ ((640 : ℕ) : ℚ) ((480 : ℕ) : ℚ)).1
      (facePixelCoords ⟨1/2, 1/2, 3/10, 3/10⟩ ((640 : ℕ) : ℚ) ((480 : ℕ) : ℚ)).2.1
      (facePixelCoords ⟨1/2, 1/2, 3/10, 3/10⟩ ((640 : ℕ) : ℚ) ((480 : ℕ) : ℚ)).2.2.1
      (facePixelCoords ⟨1/2, 1/2, 3/10, 3/10⟩ ((640 : ℕ) : ℚ) ((480 : ℕ) : ℚ)).2.2.2
        = some ⟨224, 168, 192, 144⟩ := by
  norm_num [predictEmotionForFace, facePixelCoords]

/-- Witness of the amended C9 on the 640x480 frame of the first end-to-end scenario. -/
theorem predictEmotionForFace_region_integrality_witness :
    ∃ i j : ℤ, 0 ≤ i ∧ 0 ≤ j ∧ (224 : ℚ) = i ∧ (168 : ℚ) = j ∧
      ((192 : ℚ) = 3/10 * (640 : ℕ) ∨ (192 : ℚ) = (((640 : ℕ) - i : ℤ) : ℚ)) ∧
      ((144 : ℚ) = 3/10 * (480 : ℕ) ∨ (144 : ℚ) = (((480 : ℕ) - j : ℤ) : ℚ)) ∧
      ((∃ n : ℤ, (3/10 : ℚ) * (640 : ℕ) = n) → ∃ n : ℤ, (192 : ℚ) = n) ∧
      ((∃ n : ℤ, (3/10 : ℚ) * (480 : ℕ) = n) → ∃ n : ℤ, (144 : ℚ) = n) :=
  predictEmotionForFace_region_integrality true true ⟨1/2, 1/2, 3/10, 3/10⟩ 640 480
    ⟨224, 168, 192, 144⟩ (by norm_num) (by norm_num) (by norm_num) (by norm_num)
    (by norm_num) (by norm_num) scenario_region_nat

/-! ## The throttle -/

/-- Counterexample to C3: an attempt exactly 300 ms after an accepted one is
throttled, although `t2 - t1 ≥ 300`. -/
theorem throttle_boundary_counterexample :
    ¬ ∀ t1 t2 : Int, t1 ≤ t2 →
      (t2 - t1 < 300 → throttleStep t1 t2 = (false, t1)) ∧
      (t2 - t1 ≥ 300 → throttleStep t1 t2 = (true, t2)) := by
  intro hall
  have h := (hall 1000 1300 (by decide)).2 (by decide)
  revert h
  decide

section ThrottleStep

variable {K : Type} [LinearOrderedField K] [FloorRing K]

/-- C3, amended: for consecutive attempts at times `t1 ≤ t2` where the attempt at
`t1` was accepted (`lastPredictionTime = t1`): if `t2 - t1 ≤ 300` the second attempt
is throttled (`predictEmotionForFace` is not called and the state, in particular
`lastPredictionTime`, is unchanged); if `t2 - t1 > 300` the second attempt is made
(`predictEmotionForFace` is called, its region if any joins the classifications in
flight, and `lastPredictionTime` becomes `t2`). -/
theorem throttle_consecutive_attempts (st : AppState K) (bbox : BoundingBox K) (t1 t2 : Int)
    (_h12 : t1 ≤ t2) (hlast : st.lastPredictionTime = t1) :
    (t2 - t1 ≤ 300 → throttleStep t1 t2 = (false, t1) ∧ onDetection st (bbox, t2) = st) ∧
    (t2 - t1 > 300 → throttleStep t1 t2 = (true, t2) ∧
      (onDetection st (bbox, t2)).lastPredictionTime = t2 ∧
      (onDetection st (bbox, t2)).inFlight = st.inFlight ++
        (predictEmotionForFace st.model st.running st.videoWidth st.videoHeight
          (facePixelCoords bbox st.videoWidth st.videoHeight).1
          (facePixelCoords bbox st.videoWidth st.videoHeight).2.1
          (facePixelCoords bbox st.videoWidth st.videoHeight).2.2.1
          (facePixelCoords bbox st.videoWidth st.videoHeight).2.2.2).toList) := by
  subst hlast
  constructor
  · intro h
    have hp : throttlePasses st.lastPredictionTime t2 = false := by
      simp only [throttlePasses, PREDICTION_INTERVAL, decide_eq_false_iff_not]
      omega
    simp [throttleStep, onDetection, hp]
  · intro h
    have hp : throttlePasses st.lastPredictionTime t2 = true := by
      simp only [throttlePasses, PREDICTION_INTERVAL, decide_eq_true_eq]
      omega
    refine ⟨by simp [throttleStep, hp], by simp [onDetection, hp], ?_⟩
    simp only [onDetection, hp, if_true]
    cases predictEmotionForFace st.model st.running st.videoWidth st.videoHeight
          (facePixelCoords bbox st.videoWidth st.videoHeight).1
          (facePixelCoords bbox st.videoWidth st.videoHeight).2.1
          (facePixelCoords bbox st.videoWidth st.videoHeight).2.2.1
          (facePixelCoords bbox st.videoWidth st.videoHeight).2.2.2 <;> simp

end ThrottleStep

/-- Witness of the amended C3: after an accepted attempt at 1000 on the face box of
the first end-to-end scenario, an attempt at 1400 is made and sets
`lastPredictionTime` to 1400. -/
theorem throttle_consecutive_attempts_witness :
    throttleStep 1000 1400 = (true, 1400) ∧
      (onDetection (runningState 1000 : AppState ℚ) (scenarioBox, 1400)).lastPredictionTime
        = 1400 :=
  ⟨((throttle_consecutive_attempts (runningState 1000 : AppState ℚ) scenarioBox 1000 1400
      (by decide) rfl).2 (by decide)).1,
    ((throttle_consecutive_attempts (runningState 1000 : AppState ℚ) scenarioBox 1000 1400
      (by decide) rfl).2 (by decide)).2.1⟩

/-- The throttle flag is the decision of line 119. -/
theorem throttleStep_fst (last now : Int) :
    (throttleStep last now).1 = true ↔ now - last > 300 := by
  unfold throttleStep throttlePasses PREDICTION_INTERVAL
  by_cases h : now - last > 300 <;> simp [h]

/-- The value of `lastPredictionTime` after one attempt. -/
theorem throttleStep_snd (last now : Int) :
    (throttleStep last now).2 = if now - last > 300 then now else last := by
  unfold throttleStep throttlePasses PREDICTION_INTERVAL
  by_cases h : now - last > 300 <;> simp [h]

theorem throttleRun_length (last : Int) (ts : List Int) :
    (throttleRun last ts).length = ts.length := by
  induction ts generalizing last with
  | nil => rfl
  | cons t rest ih => simp [throttleRun, ih]

/-- An accepted attempt lies more than 300 ms after any lower bound of
`lastPredictionTime`. -/
theorem throttleRun_accept_after (ts : List Int) (last lo : Int) (j : Nat) (tj : Int)
    (hlo : lo ≤ last) (hj : ts[j]? = some tj) (hacc : (throttleRun last ts)[j]? = some true) :
    tj - lo > 300 := by
  induction ts generalizing last j with
  | nil => simp at hj
  | cons t rest ih =>
    cases j with
    | zero =>
      simp only [List.getElem?_cons_zero, Option.some.injEq] at hj
      simp only [throttleRun, List.getElem?_cons_zero, Option.some.injEq] at hacc
      have := (throttleStep_fst last t).1 hacc
      omega
    | succ j =>
      simp only [List.getElem?_cons_succ] at hj
      simp only [throttleRun, List.getElem?_cons_succ] at hacc
      refine ih (throttleStep last t).2 j ?_ hj hacc
      rw [throttleStep_snd]
      split_ifs <;> omega

/-- Two accepted attempts are more than 300 ms apart. -/
theorem throttleRun_accept_accept (ts : List Int) (last : Int) (i j : Nat) (ti tj : Int)
    (hij : i < j) (hi : ts[i]? = some ti) (hj : ts[j]? = some tj)
    (hacci : (throttleRun last ts)[i]? = some true)
    (haccj : (throttleRun last ts)[j]? = some true) : tj - ti > 300 := by
  induction ts generalizing last i j with
  | nil => simp at hi
  | cons t rest ih =>
    cases j with
    | zero => omega
    | succ j =>
      simp only [List.getElem?_cons_succ] at hj
      simp only [throttleRun, List.getElem?_cons_succ] at haccj
      cases i with
      | zero =>
        simp only [List.getElem?_cons_zero, Option.some.injEq] at hi
        simp only [throttleRun, List.getElem?_cons_zero, Option.some.injEq] at hacci
        have h1 := (throttleStep_fst last t).1 hacci
        refine throttleRun_accept_after rest (throttleStep last t).2 ti j tj ?_ hj haccj
        rw [throttleStep_snd, if_pos h1, hi]
      | succ i =>
        simp only [List.getElem?_cons_succ] at hi
        simp only [throttleRun, List.getElem?_cons_succ] at hacci
        exact ih (throttleStep last t).2 i j (by omega) hi hj hacci haccj

/-- The first attempt that lies more than 300 ms after `lastPredictionTime` passes. -/
theorem throttleRun_first_outside (ts : List Int) (last : Int) (j : Nat) (tj : Int)
    (hj : ts[j]? = some tj)
    (hbefore : ∀ k tk, k < j → ts[k]? = some tk → tk - last ≤ 300)
    (hout : tj - last > 300) : (throttleRun last ts)[j]? = some true := by
  induction ts generalizing j with
  | nil => simp at hj
  | cons t rest ih =>
    cases j with
    | zero =>
      simp only [List.getElem?_cons_zero, Option.some.injEq] at hj
      simp only [throttleRun, List.getElem?_cons_zero, Option.some.injEq]
      rw [throttleStep_fst, hj]; exact hout
    | succ j =>
      simp only [List.getElem?_cons_succ] at hj
      have h0 : t - last ≤ 300 := hbefore 0 t (by omega) (by simp)
      have hs : (throttleStep last t).2 = last := by
        rw [throttleStep_snd, if_neg (by omega)]
      simp only [throttleRun, List.getElem?_cons_succ, hs]
      exact ih j hj (fun k tk hk hkt => hbefore (k + 1) tk (by omega) (by simpa using hkt))

/-- After an accepted attempt, the next accepted one is the first that lies more than
300 ms later. -/
theorem throttleRun_next_accept (ts : List Int) (last : Int) (i j : Nat) (ti tj : Int)
    (hij : i < j) (hi : ts[i]? = some ti) (hj : ts[j]? = some tj)
    (hacci : (throttleRun last ts)[i]? = some true)
    (hbetween : ∀ k tk, i < k → k < j → ts[k]? = some tk → tk - ti ≤ 300)
    (hout : tj - ti > 300) : (throttleRun last ts)[j]? = some true := by
  induction ts generalizing last i j with
  | nil => simp at hi
  | cons t rest ih =>
    cases j with
    | zero => omega
    | succ j =>
      simp only [List.getElem?_cons_succ] at hj
      simp only [throttleRun, List.getElem?_cons_succ]
      cases i with
      | zero =>
        simp only [List.getElem?_cons_zero, Option.some.injEq] at hi
        simp only [throttleRun, List.getElem?_cons_zero, Option.some.injEq] at hacci
        have h1 := (throttleStep_fst last t).1 hacci
        have hs : (throttleStep last t).2 = ti := by
          rw [throttleStep_snd, if_pos h1, hi]
        rw [hs]
        exact throttleRun_first_outside rest ti j tj hj
          (fun k tk hk hkt => hbetween (k + 1) tk (by omega) (by omega) (by simpa using hkt)) hout
      | succ i =>
        simp only [List.getElem?_cons_succ] at hi
        simp only [throttleRun, List.getElem?_cons_succ] at hacci
        exact ih (throttleStep last t).2 i j (by omega) hi hj hacci
          (fun k tk hik hkj hkt =>
            hbetween (k + 1) tk (by omega) (by omega) (by simpa using hkt))

/-- C10: the throttle is per process. For every sequence `ts` of attempt timestamps (in
iteration order, across the faces of a frame and across frames; in particular a
non-decreasing one), starting from `lastPredictionTime = 0`: two attempts that both
pass the check are more than 300 ms apart; an attempt that follows an accepted one
within its 300 ms window is throttled, so the window holds one accepted attempt,
the first in iteration order; and the next accepted attempt is the first one, in
iteration order, that lies more than 300 ms after it. -/
theorem throttle_per_process (ts : List Int) (i j : Nat) (ti tj : Int)
    (_hsorted : ts.Pairwise (fun a b => a ≤ b)) (hij : i < j)
    (hi : ts[i]? = some ti) (hj : ts[j]? = some tj)
    (hacci : (throttleRun 0 ts)[i]? = some true) :
    ((throttleRun 0 ts)[j]? = some true → tj - ti > 300) ∧
    (tj - ti ≤ 300 → (throttleRun 0 ts)[j]? = some false) ∧
    ((∀ k tk, i < k → k < j → ts[k]? = some tk → tk - ti ≤ 300) → tj - ti > 300 →
      (throttleRun 0 ts)[j]? = some true) := by
  refine ⟨fun haccj => throttleRun_accept_accept ts 0 i j ti tj hij hi hj hacci haccj, ?_,
    fun hbetween hout => throttleRun_next_accept ts 0 i j ti tj hij hi hj hacci hbetween hout⟩
  intro hclose
  have hlen : j < (throttleRun 0 ts).length := by
    rw [throttleRun_length]
    by_contra hge
    rw [List.getElem?_eq_none (by omega)] at hj
    exact absurd hj (by simp)
  rw [List.getElem?_eq_getElem hlen]
  cases hb : (throttleRun 0 ts)[j] with
  | false => rfl
  | true =>
    have haccj : (throttleRun 0 ts)[j]? = some true := by
      rw [List.getElem?_eq_getElem hlen, hb]
    have := throttleRun_accept_accept ts 0 i j ti tj hij hi hj hacci haccj
    omega

/-- Witness of C10: two faces in a frame at 1000 ms and one face in a frame at 1400 ms;
after the first face is accepted, the second one is throttled and the third one is
the next that passes. -/
theorem throttle_per_process_witness :
    (throttleRun 0 [1000, 1000, 1400])[1]? = some false ∧
      (throttleRun 0 [1000, 1000, 1400])[2]? = some true :=
  ⟨(throttle_per_process [1000, 1000, 1400] 0 1 1000 1000 (by decide) (by decide)
      (by decide) (by decide) (by decide)).2.1 (by decide),
    (throttle_per_process [1000, 1000, 1400] 0 2 1000 1400 (by decide) (by decide)
      (by decide) (by decide) (by decide)).2.2
      (by
        intro k tk h1 h2 hk
        obtain rfl : k = 1 := by omega
        simp only [List.getElem?_cons_succ, List.getElem?_cons_zero, Option.some.injEq] at hk
        omega)
      (by decide)⟩

/-! ## The throttle inside onFaceDetectionResults -/

section ThrottleLoop

variable {K : Type} [LinearOrderedField K] [FloorRing K]

theorem onDetection_fields (st : AppState K) (d : BoundingBox K × Int) :
    (onDetection st d).model = st.model ∧ (onDetection st d).running = st.running ∧
      (onDetection st d).videoWidth = st.videoWidth ∧
      (onDetection st d).videoHeight = st.videoHeight ∧
      (onDetection st d).calls = st.calls ∧
      (onDetection st d).lastPredictionTime = (throttleStep st.lastPredictionTime d.2).2 := by
  unfold onDetection throttleStep
  by_cases hp : throttlePasses st.lastPredictionTime d.2 = true
  · simp only [hp, if_true]
    split <;> simp
  · simp [hp]

theorem onDetection_inFlight (st : AppState K) (d : BoundingBox K × Int) :
    (onDetection st d).inFlight = st.inFlight ++
      (if (throttleStep st.lastPredictionTime d.2).1 then
        (predictEmotionForFace st.model st.running st.videoWidth st.videoHeight
          (facePixelCoords d.1 st.videoWidth st.videoHeight).1
          (facePixelCoords d.1 st.videoWidth st.videoHeight).2.1
          (facePixelCoords d.1 st.videoWidth st.videoHeight).2.2.1
          (facePixelCoords d.1 st.videoWidth st.videoHeight).2.2.2).toList
      else []) := by
  unfold onDetection throttleStep
  by_cases hp : throttlePasses st.lastPredictionTime d.2 = true
  · simp only [hp, if_true]
    split <;> simp [*]
  · simp [hp]

/-- The faces that `onFaceDetectionResults` hands on are those at the positions where
`throttleRun` decides `true`, as far as `predictEmotionForFace` lets them through. -/
theorem onFaceDetectionResults_inFlight (st : AppState K) (ds : List (BoundingBox K × Int)) :
    (onFaceDetectionResults st ds).inFlight = st.inFlight ++
      ((ds.zip (throttleRun st.lastPredictionTime (ds.map Prod.snd))).map (fun p =>
        if p.2 then
          (predictEmotionForFace st.model st.running st.videoWidth st.videoHeight
            (facePixelCoords p.1.1 st.videoWidth st.videoHeight).1
            (facePixelCoords p.1.1 st.videoWidth st.videoHeight).2.1
            (facePixelCoords p.1.1 st.videoWidth st.videoHeight).2.2.1
            (facePixelCoords p.1.1 st.videoWidth st.videoHeight).2.2.2).toList
        else [])).flatten := by
  induction ds generalizing st with
  | nil => simp [onFaceDetectionResults, throttleRun]
  | cons d rest ih =>
    have hstep : onFaceDetectionResults st (d :: rest)
        = onFaceDetectionResults (onDetection st d) rest := rfl
    obtain ⟨hm, hr, hW, hH, -, hl⟩ := onDetection_fields st d
    rw [hstep, ih, onDetection_inFlight, hm, hr, hW, hH, hl]
    simp [throttleRun, List.append_assoc]

end ThrottleLoop

/-! ## Softmax -/

theorem labelProbs_map_prob {K : Type} (l : List K) :
    (labelProbs l).map Prediction.prob = l := by
  apply List.ext_getElem
  · simp [labelProbs]
  · intro n h1 h2
    simp [labelProbs]

theorem labelProbs_map_label {K : Type} (l : List K) (h : l.length = 7) :
    (labelProbs l).map Prediction.label = LABELS.map some := by
  match l, h with
  | [a, b, c, d, e, f, g], _ => simp [labelProbs, LABELS]

section SoftmaxGeneric

variable {K : Type} [LinearOrderedField K]

theorem foldl_max_map_add (xs : List K) (a c : K) :
    (xs.map (fun p => p + c)).foldl max (a + c) = xs.foldl max a + c := by
  induction xs generalizing a with
  | nil => rfl
  | cons x rest ih =>
    simp only [List.map_cons, List.foldl_cons]
    rw [max_add_add_right, ih]

theorem tfMax_map_add (v : List K) (c : K) (hv : v ≠ []) :
    tfMax (v.map (fun p => p + c)) = tfMax v + c := by
  cases v with
  | nil => exact absurd rfl hv
  | cons x rest => exact foldl_max_map_add rest x c

theorem softmax_map_add (expf : K → K) (v : List K) (c : K) (hv : v ≠ []) :
    softmax expf (v.map (fun p => p + c)) = softmax expf v := by
  unfold softmax
  simp only [tfMax_map_add v c hv, List.map_map]
  have hfun : ((fun p => expf (p - (tfMax v + c))) ∘ fun p => p + c)
      = fun p => expf (p - tfMax v) := by
    funext p
    simp only [Function.comp_apply, add_sub_add_right_eq_sub]
  rw [hfun]

theorem foldl_add_eq_sum (l : List K) (a : K) :
    l.foldl (fun a b => a + b) a = a + l.sum := by
  induction l generalizing a with
  | nil => simp
  | cons x rest ih => simp [ih, add_assoc]

theorem tfSum_eq_sum (l : List K) : tfSum l = l.sum := by
  simp [tfSum, foldl_add_eq_sum]

/-- With a positive exponential the softmax of a non-empty vector sums to one. -/
theorem softmax_sum (expf : K → K) (hpos : ∀ x, 0 < expf x) (v : List K) (hv : v ≠ []) :
    (softmax expf v).sum = 1 := by
  unfold softmax
  simp only [tfSum_eq_sum]
  have hS : 0 < ((v.map (fun p => expf (p - tfMax v))).sum) := by
    apply List.sum_pos
    · intro x hx
      obtain ⟨p, -, rfl⟩ := List.mem_map.1 hx
      exact hpos _
    · simpa using hv
  simp only [div_eq_mul_inv]
  rw [List.sum_map_mul_right, List.map_id', mul_inv_cancel₀ (ne_of_gt hS)]

theorem normalizeProbs_length (expf : K → K) (l : List K) :
    (normalizeProbs expf l).length = l.length := by
  unfold normalizeProbs softmax
  dsimp only
  split_ifs <;> simp

end SoftmaxGeneric

/-- C7: the softmax used by `predictEmotion` is invariant under adding a constant to
every logit: for every non-empty real vector `v` and every real `c`,
`softmax (v + c) = softmax v`, over exact real arithmetic. -/
theorem softmax_shift_invariant (v : List ℝ) (c : ℝ) (hv : v ≠ []) :
    softmax Real.exp (v.map (fun p => p + c)) = softmax Real.exp v :=
  softmax_map_add Real.exp v c hv

/-- Witness of C7: the logits of the first end-to-end scenario, shifted by 3. -/
theorem softmax_shift_invariant_witness :
    softmax Real.exp ([5, 0, 0, 0, 0, 0, 0].map (fun p => p + 3))
      = softmax Real.exp [5, 0, 0, 0, 0, 0, 0] :=
  softmax_shift_invariant [5, 0, 0, 0, 0, 0, 0] 3 (by simp)

/-- C2: for every raw classifier output of length 7 over the reals, the list `results`
built by `predictEmotion` has probabilities that sum to 1 within 0.01, is sorted in
non-increasing order of `prob`, and contains each of the 7 labels exactly once: its
labels are a rearrangement of the 7 pairwise distinct entries of `LABELS`. -/
theorem rankedResults_distribution (raw : List ℝ) (hlen : raw.length = 7) :
    |((rankedResults Real.exp raw).map Prediction.prob).sum - 1| ≤ 0.01 ∧
    (rankedResults Real.exp raw).Sorted (fun a b => a.prob ≥ b.prob) ∧
    ((rankedResults Real.exp raw).map Prediction.label).Perm (LABELS.map some) ∧
    LABELS.Nodup ∧ LABELS.length = 7 := by
  have hperm : (rankedResults Real.exp raw).Perm (labelProbs (normalizeProbs Real.exp raw)) :=
    List.perm_insertionSort _ _
  have hne : raw ≠ [] := by
    intro h; rw [h] at hlen; simp at hlen
  refine ⟨?_, ?_, ?_, by decide, rfl⟩
  · rw [(hperm.map Prediction.prob).sum_eq, labelProbs_map_prob]
    unfold normalizeProbs
    dsimp only
    split_ifs with hbig
    · rw [softmax_sum Real.exp Real.exp_pos raw hne]
      norm_num
    · rw [foldl_add_eq_sum, zero_add] at hbig
      have := not_lt.1 hbig
      norm_num at this ⊢
      exact this
  · exact List.sorted_insertionSort probDescending _
  · have h := hperm.map Prediction.label
    rwa [labelProbs_map_label _ (by rw [normalizeProbs_length, hlen])] at h

/-- Witness of C2: the classifier output of the first end-to-end scenario. -/
theorem rankedResults_distribution_witness :
    |((rankedResults Real.exp [5, 0, 0, 0, 0, 0, 0]).map Prediction.prob).sum - 1| ≤ 0.01 ∧
    (rankedResults Real.exp [5, 0, 0, 0, 0, 0, 0]).Sorted (fun a b => a.prob ≥ b.prob) ∧
    ((rankedResults Real.exp [5, 0, 0, 0, 0, 0, 0]).map Prediction.label).Perm
      (LABELS.map some) ∧
    LABELS.Nodup ∧ LABELS.length = 7 :=
  rankedResults_distribution [5, 0, 0, 0, 0, 0, 0] rfl

/-! ## End-to-end scenario 1 -/

theorem run_concat {K : Type} [LinearOrderedField K] [FloorRing K] (expf : K → K)
    (st : AppState K) (events : List (Event K)) (e : Event K) :
    run expf st (events ++ [e]) = step expf (run expf st events) e := by
  simp [run, List.foldl_append]

/-- The region of the first end-to-end scenario, over the reals. -/
theorem scenario_region_real :
    predictEmotionForFace true true (640 : ℝ) 480
      (facePixelCoords scenarioBox 640 480).1 (facePixelCoords scenarioBox 640 480).2.1
      (facePixelCoords scenarioBox 640 480).2.2.1 (facePixelCoords scenarioBox 640 480).2.2.2
        = some ⟨224, 168, 192, 144⟩ := by
  norm_num [predictEmotionForFace, facePixelCoords, scenarioBox]

theorem exp_five_gt : (54 : ℝ) < Real.exp 5 := by
  have h1 : (2.7 : ℝ) < Real.exp 1 := by
    have := Real.exp_one_gt_d9
    linarith
  have h5 : Real.exp 5 = Real.exp 1 ^ 5 := by
    rw [← Real.exp_nat_mul]; norm_num
  have hpow : (2.7 : ℝ) ^ 5 < Real.exp 1 ^ 5 := by
    apply pow_lt_pow_left₀ h1 (by norm_num) (by norm_num)
  rw [h5]
  have : (54 : ℝ) < 2.7 ^ 5 := by norm_num
  linarith

theorem softmax_scenario :
    softmax Real.exp [5, 0, 0, 0, 0, 0, 0] =
      [Real.exp 5 / (Real.exp 5 + 6), 1 / (Real.exp 5 + 6), 1 / (Real.exp 5 + 6),
        1 / (Real.exp 5 + 6), 1 / (Real.exp 5 + 6), 1 / (Real.exp 5 + 6),
        1 / (Real.exp 5 + 6)] := by
  have hmax : tfMax ([5, 0, 0, 0, 0, 0, 0] : List ℝ) = 5 := by
    norm_num [tfMax]
  have hpos : 0 < Real.exp 5 := Real.exp_pos 5
  have hneg : Real.exp (-5) = 1 / Real.exp 5 := by
    rw [Real.exp_neg, one_div]
  have hsum : (1 : ℝ) + 1 / Real.exp 5 + 1 / Real.exp 5 + 1 / Real.exp 5 + 1 / Real.exp 5
      + 1 / Real.exp 5 + 1 / Real.exp 5 = (Real.exp 5 + 6) / Real.exp 5 := by
    field_simp; ring
  simp only [softmax, hmax, tfSum, List.map_cons, List.map_nil, List.foldl_cons, List.foldl_nil,
    sub_self, zero_sub, Real.exp_zero, hneg, zero_add, hsum]
  have h1 : (1 : ℝ) / ((Real.exp 5 + 6) / Real.exp 5) = Real.exp 5 / (Real.exp 5 + 6) := by
    field_simp
  have h2 : (1 : ℝ) / Real.exp 5 / ((Real.exp 5 + 6) / Real.exp 5) = 1 / (Real.exp 5 + 6) := by
    field_simp
  rw [h1, h2]

theorem rankedResults_scenario :
    rankedResults Real.exp [5, 0, 0, 0, 0, 0, 0] =
      [⟨some "Angry", Real.exp 5 / (Real.exp 5 + 6)⟩, ⟨some "Disgust", 1 / (Real.exp 5 + 6)⟩,
        ⟨some "Fear", 1 / (Real.exp 5 + 6)⟩, ⟨some "Happy", 1 / (Real.exp 5 + 6)⟩,
        ⟨some "Neutral", 1 / (Real.exp 5 + 6)⟩, ⟨some "Sad", 1 / (Real.exp 5 + 6)⟩,
        ⟨some "Surprise", 1 / (Real.exp 5 + 6)⟩] := by
  have hbranch : normalizeProbs Real.exp [5, 0, 0, 0, 0, 0, 0]
      = softmax Real.exp [5, 0, 0, 0, 0, 0, 0] := by
    unfold normalizeProbs
    dsimp only
    rw [if_pos]
    norm_num [abs_of_pos]
  have hpos : 0 < Real.exp 5 := Real.exp_pos 5
  have hle : 1 / (Real.exp 5 + 6) ≤ Real.exp 5 / (Real.exp 5 + 6) := by
    apply div_le_div_of_nonneg_right _ (by linarith)
    linarith [exp_five_gt]
  rw [one_div] at hle
  unfold rankedResults
  rw [hbranch, softmax_scenario]
  apply List.Sorted.insertionSort_eq
  simp [labelProbs, LABELS, List.Sorted, probDescending, hle]

/-- C8: end-to-end scenario 1. For the face box `{xCenter: 0.5, yCenter: 0.5, width:
0.3, height: 0.3}` on a 640x480 frame, detected at a clock value beyond the first
throttle window, with classifier output `[5,0,0,0,0,0,0]`: the region handed to
`predictEmotion` is `{x: 224, y: 168, w: 192, h: 144}`; the post-processing takes
the softmax branch; `results[0]` is `Angry` with probability
`exp 5 / (exp 5 + 6) > 0.9`; and exactly that entry and that region are passed to
`showSinglePrediction` and then, once, to `publishEmotionEvent`. -/
theorem scenario_one (now : Int) (hnow : now - 0 > 300) (configClientId : Option String) :
    (run Real.exp (initialState (640 : ℝ) 480 true configClientId)
      [Event.start, Event.detections [(scenarioBox, now)]]).inFlight
        = [⟨224, 168, 192, 144⟩] ∧
    normalizeProbs Real.exp [5, 0, 0, 0, 0, 0, 0] = softmax Real.exp [5, 0, 0, 0, 0, 0, 0] ∧
    (rankedResults Real.exp [5, 0, 0, 0, 0, 0, 0]).head?
      = some ⟨some "Angry", Real.exp 5 / (Real.exp 5 + 6)⟩ ∧
    Real.exp 5 / (Real.exp 5 + 6) > 0.9 ∧
    (run Real.exp (initialState (640 : ℝ) 480 true configClientId)
      [Event.start, Event.detections [(scenarioBox, now)],
        Event.classified 0 [5, 0, 0, 0, 0, 0, 0]]).calls
        = [Call.showSinglePrediction ⟨some "Angry", Real.exp 5 / (Real.exp 5 + 6)⟩
            (some ⟨224, 168, 192, 144⟩),
          Call.publishEmotionEvent (configUserId configClientId) (some "Angry")
            (Real.exp 5 / (Real.exp 5 + 6)) (some ⟨224, 168, 192, 144⟩)] := by
  have hpass : throttlePasses 0 now = true := by
    simp only [throttlePasses, PREDICTION_INTERVAL, decide_eq_true_eq]
    omega
  have hdet : run Real.exp (initialState (640 : ℝ) 480 true configClientId)
      [Event.start, Event.detections [(scenarioBox, now)]]
      = { model := true, running := true, lastPredictionTime := now,
          videoWidth := 640, videoHeight := 480, publishDefined := true,
          configClientId := configClientId, inFlight := [⟨224, 168, 192, 144⟩],
          calls := [] } := by
    simp only [run, List.foldl_cons, List.foldl_nil, step, initialState, onFaceDetectionResults,
      onDetection, hpass, if_true, scenario_region_real, List.nil_append]
  have hpos : 0 < Real.exp 5 := Real.exp_pos 5
  refine ⟨by rw [hdet], ?_, by rw [rankedResults_scenario]; rfl, ?_, ?_⟩
  · unfold normalizeProbs
    dsimp only
    rw [if_pos]
    norm_num [abs_of_pos]
  · rw [gt_iff_lt, lt_div_iff₀ (by linarith)]
    linarith [exp_five_gt]
  · have hrun : run Real.exp (initialState (640 : ℝ) 480 true configClientId)
        [Event.start, Event.detections [(scenarioBox, now)],
          Event.classified 0 [5, 0, 0, 0, 0, 0, 0]]
        = step Real.exp (run Real.exp (initialState (640 : ℝ) 480 true configClientId)
            [Event.start, Event.detections [(scenarioBox, now)]])
            (Event.classified 0 [5, 0, 0, 0, 0, 0, 0]) :=
      run_concat Real.exp _ [Event.start, Event.detections [(scenarioBox, now)]] _
    rw [hrun, hdet]
    simp [step, predictEmotionResume, rankedResults_scenario]

/-- Witness of C8 at the clock value 1000 with no configured client id. -/
theorem scenario_one_witness :
    (run Real.exp (initialState (640 : ℝ) 480 true none)
      [Event.start, Event.detections [(scenarioBox, 1000)]]).inFlight
        = [⟨224, 168, 192, 144⟩] ∧
    normalizeProbs Real.exp [5, 0, 0, 0, 0, 0, 0] = softmax Real.exp [5, 0, 0, 0, 0, 0, 0] ∧
    (rankedResults Real.exp [5, 0, 0, 0, 0, 0, 0]).head?
      = some ⟨some "Angry", Real.exp 5 / (Real.exp 5 + 6)⟩ ∧
    Real.exp 5 / (Real.exp 5 + 6) > 0.9 ∧
    (run Real.exp (initialState (640 : ℝ) 480 true none)
      [Event.start, Event.detections [(scenarioBox, 1000)],
        Event.classified 0 [5, 0, 0, 0, 0, 0, 0]]).calls
        = [Call.showSinglePrediction ⟨some "Angry", Real.exp 5 / (Real.exp 5 + 6)⟩
            (some ⟨224, 168, 192, 144⟩),
          Call.publishEmotionEvent (configUserId none) (some "Angry")
            (Real.exp 5 / (Real.exp 5 + 6)) (some ⟨224, 168, 192, 144⟩)] :=
  scenario_one 1000 (by decide) none

/-! ## End-to-end scenario 3: stop while a classification is pending -/

/-- C4, evaluated on the code: after `start`, one accepted face at clock value 1000 and
`stop`, the loop is not running, one classification is pending and nothing has
been rendered or published; when the classifier output `[1,0,0,0,0,0,0]` then
arrives, `predictEmotion` still calls `showSinglePrediction` and
`publishEmotionEvent`, while `running` is false. -/
theorem stale_result_after_stop (expf : ℚ → ℚ) :
    (run expf (initialState (640 : ℚ) 480 true none)
      [Event.start, Event.detections [(scenarioBox, 1000)], Event.stop]).running = false ∧
    (run expf (initialState (640 : ℚ) 480 true none)
      [Event.start, Event.detections [(scenarioBox, 1000)], Event.stop]).inFlight
        = [⟨224, 168, 192, 144⟩] ∧
    (run expf (initialState (640 : ℚ) 480 true none)
      [Event.start, Event.detections [(scenarioBox, 1000)], Event.stop]).calls = [] ∧
    (run expf (initialState (640 : ℚ) 480 true none)
      [Event.start, Event.detections [(scenarioBox, 1000)], Event.stop,
        Event.classified 0 [1, 0, 0, 0, 0, 0, 0]]).running = false ∧
    (run expf (initialState (640 : ℚ) 480 true none)
      [Event.start, Event.detections [(scenarioBox, 1000)], Event.stop,
        Event.classified 0 [1, 0, 0, 0, 0, 0, 0]]).calls
        = [Call.showSinglePrediction ⟨some "Angry", 1⟩ (some ⟨224, 168, 192, 144⟩),
          Call.publishEmotionEvent none (some "Angry") 1 (some ⟨224, 168, 192, 144⟩)] := by
  have hpass : throttlePasses 0 1000 = true := by decide
  have hregion : predictEmotionForFace true true (640 : ℚ) 480
      (facePixelCoords scenarioBox 640 480).1 (facePixelCoords scenarioBox 640 480).2.1
      (facePixelCoords scenarioBox 640 480).2.2.1 (facePixelCoords scenarioBox 640 480).2.2.2
        = some ⟨224, 168, 192, 144⟩ := by
    norm_num [predictEmotionForFace, facePixelCoords, scenarioBox]
  have hstop : run expf (initialState (640 : ℚ) 480 true none)
      [Event.start, Event.detections [(scenarioBox, 1000)], Event.stop]
      = { model := true, running := false, lastPredictionTime := 1000,
          videoWidth := 640, videoHeight := 480, publishDefined := true,
          configClientId := none, inFlight := [⟨224, 168, 192, 144⟩], calls := [] } := by
    simp only [run, List.foldl_cons, List.foldl_nil, step, initialState, onFaceDetectionResults,
      onDetection, hpass, if_true, hregion, List.nil_append]
  have hranked : rankedResults expf [1, 0, 0, 0, 0, 0, 0] =
      [⟨some "Angry", 1⟩, ⟨some "Disgust", 0⟩, ⟨some "Fear", 0⟩, ⟨some "Happy", 0⟩,
        ⟨some "Neutral", 0⟩, ⟨some "Sad", 0⟩, ⟨some "Surprise", 0⟩] := by
    have hbranch : normalizeProbs expf [1, 0, 0, 0, 0, 0, 0] = [1, 0, 0, 0, 0, 0, 0] := by
      unfold normalizeProbs
      dsimp only
      rw [if_neg]
      norm_num
    unfold rankedResults
    rw [hbranch]
    apply List.Sorted.insertionSort_eq
    simp [labelProbs, LABELS, List.Sorted, probDescending]
  have hrun : run expf (initialState (640 : ℚ) 480 true none)
      [Event.start, Event.detections [(scenarioBox, 1000)], Event.stop,
        Event.classified 0 [1, 0, 0, 0, 0, 0, 0]]
      = step expf (run expf (initialState (640 : ℚ) 480 true none)
          [Event.start, Event.detections [(scenarioBox, 1000)], Event.stop])
          (Event.classified 0 [1, 0, 0, 0, 0, 0, 0]) :=
    run_concat expf _ [Event.start, Event.detections [(scenarioBox, 1000)], Event.stop] _
  rw [hrun, hstop]
  simp [step, predictEmotionResume, hranked, configUserId]

end FerApp

namespace FerMqtt

/-! ## publishEmotionEvent -/

/-- C5: for all arguments `(userId, emotion, confidence, bbox)`, a call of
`publishEmotionEvent` while the client is absent or its `connected` flag is false
returns normally, makes no call of `client.publish` and leaves the client as it
was. -/
theorem publishEmotionEvent_disconnected {K : Type} (topic : JsString) (qos : Option Nat)
    (ts : JsString) (client : Option (MqttClient K)) (userId emotion : Option JsString)
    (confidence : Option K) (bbox : Option (FerApp.Region K))
    (h : client = none ∨ ∃ c, client = some c ∧ c.connected = false) :
    publishEmotionEvent topic qos ts client userId emotion confidence bbox
      = Except.ok client := by
  rcases h with rfl | ⟨c, rfl, hc⟩
  · rfl
  · simp [publishEmotionEvent, hc]

/-- Witness of C5: a client that exists and is not connected. -/
theorem publishEmotionEvent_disconnected_witness :
    publishEmotionEvent "fer/events".toList (some 1) "2025-01-01T00:00:00.000Z".toList
      (some ({ connected := false, published := [] } : MqttClient ℚ))
      (some "fer_webapp_0011223344556677".toList) (some "Angry".toList) (some (9 / 10))
      (some ⟨224, 168, 192, 144⟩)
      = Except.ok (some ({ connected := false, published := [] } : MqttClient ℚ)) :=
  publishEmotionEvent_disconnected _ _ _ _ _ _ _ _ (Or.inr ⟨_, rfl, rfl⟩)

end FerMqtt

namespace FerMqtt

/-! ## ensureClientId: strings and cookies -/

theorem jsSplit_ne_nil (sep : Char) (s : JsString) : jsSplit sep s ≠ [] := by
  induction s with
  | nil => simp [jsSplit]
  | cons c cs ih =>
    unfold jsSplit
    split_ifs
    · simp
    · split <;> simp

theorem jsSplit_of_not_mem (sep : Char) (s : JsString) (h : sep ∉ s) : jsSplit sep s = [s] := by
  induction s with
  | nil => simp [jsSplit]
  | cons c cs ih =>
    have hc : c ≠ sep := fun hc => h (by simp [hc])
    have hcs : sep ∉ cs := fun hm => h (List.mem_cons_of_mem _ hm)
    unfold jsSplit
    rw [if_neg hc, ih hcs]

theorem jsSplit_append_sep (sep : Char) (a b : JsString) (h : sep ∉ a) :
    jsSplit sep (a ++ sep :: b) = a :: jsSplit sep b := by
  induction a with
  | nil => simp [jsSplit]
  | cons c cs ih =>
    have hc : c ≠ sep := fun hc => h (by simp [hc])
    have hcs : sep ∉ cs := fun hm => h (List.mem_cons_of_mem _ hm)
    rw [List.cons_append, jsSplit, if_neg hc, ih hcs]

theorem dropWhile_append_of_not {p : Char → Bool} (l r : List Char) (c : Char) (hc : p c = false) :
    (l ++ c :: r).dropWhile p = l.dropWhile p ++ c :: r := by
  induction l with
  | nil => simp [List.dropWhile, hc]
  | cons x xs ih =>
    rw [List.cons_append]
    by_cases hx : p x = true
    · simp [List.dropWhile, hx, ih]
    · simp [List.dropWhile, hx]

theorem dropWhile_append_all {p : Char → Bool} (pre l : List Char) (hpre : ∀ c ∈ pre, p c = true) :
    (pre ++ l).dropWhile p = l.dropWhile p := by
  induction pre with
  | nil => rfl
  | cons x xs ih =>
    have hx : p x = true := hpre x (by simp)
    simp only [List.cons_append, List.dropWhile, hx]
    exact ih (fun c hc => hpre c (List.mem_cons_of_mem _ hc))


/-- Trimming a piece of `document.cookie`: leading white space goes, and white space is
removed at the end of the value only. -/
theorem jsTrim_piece (pre n v : JsString) (hpre : ∀ c ∈ pre, isJsWhiteSpace c = true)
    (hn : n.dropWhile isJsWhiteSpace = n) :
    jsTrim (pre ++ (n ++ '=' :: v))
      = n ++ '=' :: (v.reverse.dropWhile isJsWhiteSpace).reverse := by
  have heq : isJsWhiteSpace '=' = false := by decide
  have h1 : (pre ++ (n ++ '=' :: v)).dropWhile isJsWhiteSpace = n ++ '=' :: v := by
    rw [dropWhile_append_all pre _ hpre, dropWhile_append_of_not n v '=' heq, hn]
  unfold jsTrim
  rw [h1, List.reverse_append, List.reverse_cons, List.append_assoc, List.singleton_append,
    dropWhile_append_of_not _ _ '=' heq]
  simp

theorem cookieLoop_piece (id : Option JsString) (pre : JsString) (e : JsString × JsString)
    (rest : List JsString) (hpre : ∀ c ∈ pre, isJsWhiteSpace c = true)
    (hname : '=' ∉ e.1) (hn : e.1.dropWhile isJsWhiteSpace = e.1) :
    cookieLoop id ((pre ++ entryText e) :: rest)
      = if e.1 = key then (jsSplit '=' (e.2.reverse.dropWhile isJsWhiteSpace).reverse).head?
        else cookieLoop id rest := by
  rw [cookieLoop]
  simp only [entryText]
  rw [jsTrim_piece pre e.1 e.2 hpre hn, jsSplit_append_sep '=' _ _ hname]
  simp only [List.head?_cons, Option.some.injEq]
  split_ifs
  · cases hs : jsSplit '=' (e.2.reverse.dropWhile isJsWhiteSpace).reverse <;> simp
  · rfl

theorem documentCookie_cons_cons (e e2 : JsString × JsString) (rest : CookieJar) :
    documentCookie (e :: e2 :: rest) = entryText e ++ ';' :: ' ' :: documentCookie (e2 :: rest) := by
  simp [documentCookie, List.intercalate, List.intersperse]

theorem documentCookie_singleton (e : JsString × JsString) :
    documentCookie [e] = entryText e := by
  simp [documentCookie, List.intercalate, List.intersperse]

theorem entryText_no_semicolon (e : JsString × JsString) (h1 : ';' ∉ e.1) (h2 : ';' ∉ e.2) :
    ';' ∉ entryText e := by
  simp [entryText, h1, h2]

theorem jsSplit_documentCookie (pre : JsString) (e : JsString × JsString) (rest : CookieJar)
    (hpre : ';' ∉ pre) (hwf : WellFormedJar (e :: rest)) :
    jsSplit ';' (pre ++ documentCookie (e :: rest))
      = (pre ++ entryText e) :: rest.map (fun e2 => [' '] ++ entryText e2) := by
  induction rest generalizing pre e with
  | nil =>
    rw [documentCookie_singleton, jsSplit_of_not_mem]
    · rfl
    · have := hwf e (by simp)
      simp [entryText_no_semicolon e this.1 this.2.1, hpre]
  | cons e2 rest ih =>
    have he := hwf e (by simp)
    have hwf2 : WellFormedJar (e2 :: rest) := fun x hx => hwf x (List.mem_cons_of_mem _ hx)
    rw [documentCookie_cons_cons, ← List.append_assoc, jsSplit_append_sep]
    · have := ih [' '] e2 (by decide) hwf2
      simp only [List.singleton_append] at this
      simp only [List.map_cons, List.singleton_append]
      rw [← this]
    · simp [entryText_no_semicolon e he.1 he.2.1, hpre]

/-- The value the loop of lines 32-38 leaves in `id` when the cookies are read from a
well-formed store: that of the first cookie called `fer_client_id`, cut at its first
`=` and stripped of trailing white space. -/
theorem cookieLoop_pieces (id : Option JsString) (pre : JsString) (e : JsString × JsString)
    (rest : CookieJar) (hpre : ∀ c ∈ pre, isJsWhiteSpace c = true)
    (hwf : WellFormedJar (e :: rest)) :
    cookieLoop id ((pre ++ entryText e) :: rest.map (fun e2 => [' '] ++ entryText e2))
      = match (e :: rest).find? (fun x => decide (x.1 = key)) with
        | some x => (jsSplit '=' (x.2.reverse.dropWhile isJsWhiteSpace).reverse).head?
        | none => id := by
  induction rest generalizing pre e with
  | nil =>
    have he := hwf e (by simp)
    rw [List.map_nil, cookieLoop_piece id pre e [] hpre he.2.2.1 he.2.2.2]
    by_cases hk : e.1 = key
    · simp [hk]
    · simp [hk, cookieLoop]
  | cons e2 rest ih =>
    have he := hwf e (by simp)
    have hwf2 : WellFormedJar (e2 :: rest) := fun x hx => hwf x (List.mem_cons_of_mem _ hx)
    rw [List.map_cons, cookieLoop_piece id pre e _ hpre he.2.2.1 he.2.2.2]
    by_cases hk : e.1 = key
    · simp [hk]
    · rw [if_neg hk, ih [' '] e2 (by decide) hwf2]
      conv_rhs => rw [List.find?_cons_of_neg _ (by simpa using hk)]

theorem cookieLoop_documentCookie (id : Option JsString) (jar : CookieJar)
    (hwf : WellFormedJar jar) (v : JsString) (hv : CookieSafe v)
    (hfind : jar.find? (fun x => decide (x.1 = key)) = some (key, v)) :
    cookieLoop id (jsSplit ';' (documentCookie jar)) = some v := by
  cases jar with
  | nil => simp at hfind
  | cons e rest =>
    have h := jsSplit_documentCookie [] e rest (by simp) hwf
    rw [List.nil_append] at h
    rw [h, cookieLoop_pieces id [] e rest (by simp) hwf, hfind]
    simp only
    rw [hv.2.2.2, List.reverse_reverse, jsSplit_of_not_mem '=' v hv.2.1]
    rfl

theorem setCookie_find (name value : JsString) (jar : CookieJar) :
    (setCookie name value jar).find? (fun x => decide (x.1 = name)) = some (name, value) := by
  induction jar with
  | nil => simp [setCookie]
  | cons e rest ih =>
    unfold setCookie
    by_cases h : e.1 = name
    · simp [h]
    · rw [if_neg h, List.find?_cons_of_neg _ (by simpa using h)]
      exact ih

theorem setCookie_wellFormed (name value : JsString) (jar : CookieJar)
    (hwf : WellFormedJar jar) (h1 : ';' ∉ name) (h2 : ';' ∉ value) (h3 : '=' ∉ name)
    (h4 : name.dropWhile isJsWhiteSpace = name) : WellFormedJar (setCookie name value jar) := by
  induction jar with
  | nil =>
    intro e he
    simp only [setCookie, List.mem_singleton] at he
    subst he
    exact ⟨h1, h2, h3, h4⟩
  | cons e rest ih =>
    have hrest : WellFormedJar rest := fun x hx => hwf x (List.mem_cons_of_mem _ hx)
    unfold setCookie
    split_ifs with hk
    · intro x hx
      rcases List.mem_cons.1 hx with rfl | hx
      · exact ⟨h1, h2, h3, h4⟩
      · exact hrest x hx
    · intro x hx
      rcases List.mem_cons.1 hx with rfl | hx
      · exact hwf _ (by simp)
      · exact ih hrest x hx

theorem takeWhile_append_stop {p : Char → Bool} (a b : List Char) (c : Char)
    (ha : ∀ x ∈ a, p x = true) (hc : p c = false) : (a ++ c :: b).takeWhile p = a := by
  induction a with
  | nil => simp [List.takeWhile, hc]
  | cons x xs ih =>
    have hx : p x = true := ha x (by simp)
    rw [List.cons_append, List.takeWhile_cons, if_pos hx,
      ih (fun y hy => ha y (List.mem_cons_of_mem _ hy))]

theorem dropWhile_append_stop {p : Char → Bool} (a b : List Char) (c : Char)
    (ha : ∀ x ∈ a, p x = true) (hc : p c = false) : (a ++ c :: b).dropWhile p = c :: b := by
  rw [dropWhile_append_of_not a b c hc]
  have : a.dropWhile p = [] := by
    rw [List.dropWhile_eq_nil_iff]
    exact ha
  rw [this, List.nil_append]

theorem dropWhile_eq_self_of_imp {p q : Char → Bool} (l : List Char)
    (hpq : ∀ c, q c = true → p c = true) (h : l.dropWhile p = l) : l.dropWhile q = l := by
  cases l with
  | nil => rfl
  | cons x xs =>
    have hx : p x = false := by
      by_contra hne
      have hpx : p x = true := by simpa using hne
      have hlen := congrArg List.length h
      simp only [List.dropWhile, hpx, List.length_cons] at hlen
      have := (List.dropWhile_sublist p (l := xs)).length_le
      omega
    have hqx : q x = false := by
      by_contra hne
      have : q x = true := by simpa using hne
      rw [hpq x this] at hx
      exact absurd hx (by simp)
    simp [List.dropWhile, hqx]

theorem cookieTrim_of_safe (v : JsString) (h1 : v.dropWhile isJsWhiteSpace = v)
    (h2 : v.reverse.dropWhile isJsWhiteSpace = v.reverse) : cookieTrim v = v := by
  have hpq : ∀ c, (fun c : Char => c = ' ' || c = '\t') c = true → isJsWhiteSpace c = true := by
    intro c hc
    simp only [Bool.or_eq_true, decide_eq_true_eq] at hc
    rcases hc with rfl | rfl <;> decide
  unfold cookieTrim
  simp only
  rw [dropWhile_eq_self_of_imp v hpq h1, dropWhile_eq_self_of_imp v.reverse hpq h2,
    List.reverse_reverse]

/-- An assignment of the template text with a cookie-safe identifier stores exactly that
identifier under `fer_client_id`. -/
theorem assignDocumentCookie_cookieText (jar : CookieJar) (v expires : JsString)
    (hv : CookieSafe v) :
    assignDocumentCookie jar (cookieText v expires) = setCookie key v jar := by
  obtain ⟨hsemi, heq, hlead, htrail⟩ := hv
  have hpair : (cookieText v expires).takeWhile (fun c => decide (c ≠ ';'))
      = key ++ '=' :: v := by
    have : cookieText v expires = (key ++ '=' :: v) ++ ';' ::
        (" expires=".toList ++ expires ++ "; path=/; SameSite=Strict".toList) := by
      simp [cookieText]
    rw [this, takeWhile_append_stop _ _ ';' _ (by simp)]
    intro x hx
    rcases List.mem_append.1 hx with hk | hk
    · have : ';' ∉ key := by decide
      simp only [ne_eq, decide_not, Bool.not_eq_true', decide_eq_false_iff_not]
      rintro rfl
      exact this hk
    · rcases List.mem_cons.1 hk with rfl | hk
      · decide
      · simp only [ne_eq, decide_not, Bool.not_eq_true', decide_eq_false_iff_not]
        rintro rfl
        exact hsemi hk
  have hkey : ∀ x ∈ key, (fun c : Char => decide (c ≠ '=')) x = true := by decide
  have hname : (key ++ '=' :: v).takeWhile (fun c => decide (c ≠ '=')) = key :=
    takeWhile_append_stop key v '=' hkey (by simp)
  have hvalue : ((key ++ '=' :: v).dropWhile (fun c => decide (c ≠ '='))).drop 1 = v := by
    rw [dropWhile_append_stop key v '=' hkey (by simp)]
    rfl
  have hkt : cookieTrim key = key := by decide
  unfold assignDocumentCookie
  simp only [hpair, hname, hvalue, hkt, cookieTrim_of_safe v hlead htrail]
  rw [if_pos (by simp), if_neg (by decide)]


theorem hexDigit_plain (d : Fin 16) :
    hexDigit d ≠ ';' ∧ hexDigit d ≠ '=' ∧ isJsWhiteSpace (hexDigit d) = false := by
  revert d
  decide

theorem generateId_chars (rnd : RandomSource) :
    ∀ c ∈ generateId rnd, c ≠ ';' ∧ c ≠ '=' ∧ isJsWhiteSpace c = false := by
  have hpre : ∀ c ∈ "fer_webapp_".toList, c ≠ ';' ∧ c ≠ '=' ∧ isJsWhiteSpace c = false := by
    decide
  intro c hc
  unfold generateId at hc
  cases hb : rnd.cryptoBytes with
  | some buf =>
    rw [hb] at hc
    rcases List.mem_append.1 hc with h | h
    · exact hpre c h
    · obtain ⟨l, hl, hcl⟩ := List.mem_flatten.1 h
      obtain ⟨b, -, rfl⟩ := List.mem_map.1 hl
      simp only [byteHex, List.mem_cons, List.mem_singleton, List.not_mem_nil, or_false] at hcl
      rcases hcl with rfl | rfl <;> exact hexDigit_plain _
  | none =>
    rw [hb] at hc
    rcases List.mem_append.1 hc with h | h
    · exact hpre c h
    · obtain ⟨d, -, rfl⟩ := List.mem_map.1 h
      exact hexDigit_plain d

theorem dropWhile_eq_self_of_all_false {p : Char → Bool} (l : List Char)
    (h : ∀ c ∈ l, p c = false) : l.dropWhile p = l := by
  cases l with
  | nil => rfl
  | cons x xs => simp [List.dropWhile, h x (by simp)]

/-- Every identifier that lines 44-50 generate is cookie-safe. -/
theorem generateId_cookieSafe (rnd : RandomSource) : CookieSafe (generateId rnd) := by
  have h := generateId_chars rnd
  refine ⟨fun hm => (h _ hm).1 rfl, fun hm => (h _ hm).2.1 rfl, ?_, ?_⟩
  · exact dropWhile_eq_self_of_all_false _ (fun c hc => (h c hc).2.2)
  · exact dropWhile_eq_self_of_all_false _ (fun c hc => (h c (List.mem_reverse.1 hc)).2.2)

theorem generateId_ne_nil (rnd : RandomSource) : generateId rnd ≠ [] := by
  unfold generateId
  cases rnd.cryptoBytes <;> simp

theorem getD_ne_nil_of_truthy (x : Option JsString) (h : jsTruthy x = true) : x.getD [] ≠ [] := by
  cases x with
  | none => simp [jsTruthy] at h
  | some s =>
    cases s with
    | nil => simp [jsTruthy] at h
    | cons c cs => simp

theorem jsTruthy_none : jsTruthy none = false := rfl

theorem jsTruthy_some (v : JsString) (h : v ≠ []) : jsTruthy (some v) = true := by
  cases v with
  | nil => exact absurd rfl h
  | cons c cs => rfl

/-- With a configured identifier, `ensureClientId` returns it and changes nothing. -/
theorem ensureClientId_configured (rnd : RandomSource) (expires : JsString) (b : Browser)
    (v : JsString) (hb : b.clientId = some v) (hv : v ≠ []) :
    ensureClientId rnd expires b = (v, b) := by
  simp [ensureClientId, ensureClientIdTry, hb, jsTruthy_some v hv]

/-- Without a configured identifier and with readable cookies, `ensureClientId` returns a
non-empty identifier, writes it to both stores and to `cfg.CLIENT_ID`. -/
theorem ensureClientId_unconfigured (rnd : RandomSource) (expires : JsString) (b : Browser)
    (hb : b.clientId = none) (hc : b.cookiesWork = true) :
    ∃ v, v ≠ [] ∧ ensureClientId rnd expires b
      = (v, { storeInBoth expires v b with clientId := some v }) := by
  unfold ensureClientId ensureClientIdTry
  simp only [hb, jsTruthy_none, hc, if_true, Bool.false_eq_true, if_false]
  by_cases h0 : jsTruthy (if b.localStorageWorks = true then b.localStorage key else none) = true
  · simp only [h0, Bool.not_true, Bool.false_eq_true, if_false]
    exact ⟨_, getD_ne_nil_of_truthy _ h0, rfl⟩
  · simp only [h0, Bool.not_false, if_true]
    by_cases h1 : jsTruthy (cookieLoop (if b.localStorageWorks = true then b.localStorage key
        else none) (jsSplit ';' (documentCookie b.cookieJar))) = true
    · simp only [h1, Bool.not_true, Bool.false_eq_true, if_false]
      exact ⟨_, getD_ne_nil_of_truthy _ h1, rfl⟩
    · simp only [h1, Bool.not_false, if_true]
      exact ⟨_, generateId_ne_nil rnd, rfl⟩

/-- Without a configured identifier, `ensureClientId` returns a non-empty identifier and
leaves it in `cfg.CLIENT_ID`. -/
theorem ensureClientId_sets_config (rnd : RandomSource) (expires : JsString) (b : Browser)
    (hb : b.clientId = none) :
    (ensureClientId rnd expires b).1 ≠ [] ∧
      (ensureClientId rnd expires b).2.clientId = some (ensureClientId rnd expires b).1 := by
  by_cases hc : b.cookiesWork = true
  · obtain ⟨v, hv, h⟩ := ensureClientId_unconfigured rnd expires b hb hc
    rw [h]
    exact ⟨hv, rfl⟩
  · unfold ensureClientId ensureClientIdTry
    simp only [hb, jsTruthy_none, hc, if_true, Bool.false_eq_true, if_false]
    by_cases h0 : jsTruthy (if b.localStorageWorks = true then b.localStorage key else none) = true
    · simp only [h0, Bool.not_true, Bool.false_eq_true, if_false]
      exact ⟨getD_ne_nil_of_truthy _ h0, trivial⟩
    · simp only [h0, Bool.not_false, if_true]
      simp


theorem storeInBoth_fields (expires v : JsString) (b : Browser) :
    (storeInBoth expires v b).cookiesWork = b.cookiesWork ∧
      (storeInBoth expires v b).localStorageWorks = b.localStorageWorks ∧
      (storeInBoth expires v b).cookieJar
        = (if b.cookiesWork = true then assignDocumentCookie b.cookieJar (cookieText v expires)
          else b.cookieJar) ∧
      (storeInBoth expires v b).localStorage
        = (if b.localStorageWorks = true then Function.update b.localStorage key (some v)
          else b.localStorage) := by
  unfold storeInBoth
  by_cases h1 : b.localStorageWorks = true <;> by_cases h2 : b.cookiesWork = true <;>
    simp [h1, h2]

/-- When the primary store gives nothing and a well-formed cookie store holds the
cookie-safe identifier `v` under `fer_client_id`, `ensureClientId` returns `v`
and mirrors it into both stores. -/
theorem ensureClientId_from_cookie (rnd : RandomSource) (expires : JsString) (b : Browser)
    (v : JsString) (hb : b.clientId = none) (hc : b.cookiesWork = true)
    (hls : b.localStorage key = none) (hwf : WellFormedJar b.cookieJar)
    (hfind : b.cookieJar.find? (fun x => decide (x.1 = key)) = some (key, v))
    (hv : v ≠ []) (hsafe : CookieSafe v) :
    ensureClientId rnd expires b = (v, { storeInBoth expires v b with clientId := some v }) := by
  have hid0 : (if b.localStorageWorks = true then b.localStorage key else none) = none := by
    rw [hls]; simp
  unfold ensureClientId ensureClientIdTry
  simp only [hb, jsTruthy_none, hc, if_true, Bool.false_eq_true, if_false, hid0, Bool.not_false,
    cookieLoop_documentCookie none b.cookieJar hwf v hsafe hfind, jsTruthy_some v hv,
    Bool.not_true, Option.getD_some]


/-- Counterexample to C6: with the text `a=b` in the item `fer_client_id` of
`localStorage`, working stores and an empty cookie store, the first call returns
`a=b` and writes the cookie `fer_client_id` with the value `a=b`; in a fresh session
without the item, where the cookie still holds `a=b`, the second call returns `a`. -/
theorem ensureClientId_recovery_counterexample :
    ¬ ∀ (rnd : RandomSource) (expires : JsString) (b0 : Browser),
      b0.clientId = none → b0.localStorageWorks = true → b0.cookiesWork = true →
      WellFormedJar b0.cookieJar →
      (ensureClientId rnd expires b0).2.cookieJar.find? (fun x => decide (x.1 = key))
        = some (key, (ensureClientId rnd expires b0).1) →
      (ensureClientId rnd expires
        (freshSessionWithoutLocalStorage (ensureClientId rnd expires b0).2)).1
          = (ensureClientId rnd expires b0).1 := by
  intro hall
  have h := hall sampleRandom [] seededBrowser rfl rfl rfl (by decide) (by decide)
  revert h
  decide

/-- C6, amended: from a state with no configured `CLIENT_ID`, let a first call of
`ensureClientId` return `v`. (i) A second call in the same session returns `v`.
(ii) If the cookies work, the cookie store is well-formed and `v` is cookie-safe
(no `;`, no `=`, no white space at either end), then in a fresh session
(`CLIENT_ID` unset again, the item `fer_client_id` of `localStorage` removed, the
cookies kept) a call returns `v` again and, where `localStorage` works, writes `v`
back to the item `fer_client_id`. (iii) Every identifier that `ensureClientId`
generates is cookie-safe. -/
theorem ensureClientId_stable (rnd rnd2 : RandomSource) (expires expires2 : JsString)
    (b0 : Browser) (hcfg : b0.clientId = none) :
    (ensureClientId rnd2 expires2 (ensureClientId rnd expires b0).2).1
      = (ensureClientId rnd expires b0).1 ∧
    (b0.cookiesWork = true → WellFormedJar b0.cookieJar →
      CookieSafe (ensureClientId rnd expires b0).1 →
      (ensureClientId rnd2 expires2
        (freshSessionWithoutLocalStorage (ensureClientId rnd expires b0).2)).1
          = (ensureClientId rnd expires b0).1 ∧
      (b0.localStorageWorks = true →
        (ensureClientId rnd2 expires2
          (freshSessionWithoutLocalStorage (ensureClientId rnd expires b0).2)).2.localStorage key
            = some (ensureClientId rnd expires b0).1)) ∧
    CookieSafe (generateId rnd) := by
  refine ⟨?_, ?_, generateId_cookieSafe rnd⟩
  · obtain ⟨hne, hset⟩ := ensureClientId_sets_config rnd expires b0 hcfg
    rw [ensureClientId_configured rnd2 expires2 _ _ hset hne]
  · intro hc hwf hsafe
    obtain ⟨v, hv, h1⟩ := ensureClientId_unconfigured rnd expires b0 hcfg hc
    rw [h1] at hsafe ⊢
    simp only at hsafe ⊢
    obtain ⟨hcw, hlw, hjar, -⟩ := storeInBoth_fields expires v b0
    rw [if_pos hc, assignDocumentCookie_cookieText _ _ _ hsafe] at hjar
    have hkey : ';' ∉ key ∧ '=' ∉ key ∧ key.dropWhile isJsWhiteSpace = key := by decide
    have h2 := ensureClientId_from_cookie rnd2 expires2
      (freshSessionWithoutLocalStorage { storeInBoth expires v b0 with clientId := some v }) v
      rfl (by simp [freshSessionWithoutLocalStorage, hcw, hc])
      (by simp [freshSessionWithoutLocalStorage])
      (by
        simp only [freshSessionWithoutLocalStorage, hjar]
        exact setCookie_wellFormed key v _ hwf hkey.1 hsafe.1 hkey.2.1 hkey.2.2)
      (by
        simp only [freshSessionWithoutLocalStorage, hjar]
        exact setCookie_find key v _)
      hv hsafe
    rw [h2]
    refine ⟨rfl, fun hl => ?_⟩
    obtain ⟨-, hlw2, -, hls2⟩ := storeInBoth_fields expires2 v
      (freshSessionWithoutLocalStorage { storeInBoth expires v b0 with clientId := some v })
    have hworks : (freshSessionWithoutLocalStorage
        { storeInBoth expires v b0 with clientId := some v }).localStorageWorks = true := by
      simp [freshSessionWithoutLocalStorage, hlw, hl]
    simp only [hls2, if_pos hworks, Function.update_same]

/-- Witness of the amended C6: a first visit with working stores; the generated
identifier is returned again in the same session and after the loss of the item in
`localStorage`, and is written back there. -/
theorem ensureClientId_stable_witness :
    (ensureClientId sampleRandom [] (ensureClientId sampleRandom [] firstVisit).2).1
      = (ensureClientId sampleRandom [] firstVisit).1 ∧
    (ensureClientId sampleRandom []
      (freshSessionWithoutLocalStorage (ensureClientId sampleRandom [] firstVisit).2)).1
        = (ensureClientId sampleRandom [] firstVisit).1 ∧
    (ensureClientId sampleRandom []
      (freshSessionWithoutLocalStorage
        (ensureClientId sampleRandom [] firstVisit).2)).2.localStorage key
          = some (ensureClientId sampleRandom [] firstVisit).1 :=
  ⟨(ensureClientId_stable sampleRandom sampleRandom [] [] firstVisit rfl).1,
    ((ensureClientId_stable sampleRandom sampleRandom [] [] firstVisit rfl).2.1 rfl
      (by decide) (by decide)).1,
    ((ensureClientId_stable sampleRandom sampleRandom [] [] firstVisit rfl).2.1 rfl
      (by decide) (by decide)).2 rfl⟩

end FerMqtt
